import Mathlib

/-!
Verification of the Tigo CCA scraping client (`custom_components/tigo/tigo_cca.py`).

The module is embedded shallowly:

* Python's stdlib `html.parser.HTMLParser` tokenizer is external to the
  repository; a fetched page is therefore modelled at the level of the
  handler events the tokenizer delivers (`handle_starttag`, `handle_data`,
  `handle_endtag`), as a `List HtmlEvent`.
* Python `dict`s are modelled as insertion-ordered association lists with
  last-write-wins assignment; in-place mutation of a record stored in a
  dict is modelled by replacing the entry for its key.
* Python `float` values arising here are exact decimal literals; they are
  modelled as exact `num / den` fractions (`PyFloat`), and `float(...)` /
  `int(...)` coercions that raise `ValueError` are modelled as
  `Option`-valued parsers, `none` standing for the raise.
* Exceptions (`KeyError`, `ValueError`, `TypeError`, `AttributeError`,
  `IndexError`) are modelled with `Except PyErr`.
-/

namespace Tigo

/-- Python `sub in s` substring containment on strings. -/
def strContains (s sub : String) : Bool :=
  (List.range (s.toList.length + 1)).any fun i => sub.toList.isPrefixOf (s.toList.drop i)

/-- Exceptions the embedded code can raise. -/
inductive PyErr where
  | keyError (k : String)
  | valueError
  | typeError
  | attributeError
  | indexError
deriving DecidableEq, Repr

deriving instance DecidableEq for Except

/-- Python dict assignment `d[k] = v`: update in place if the key exists,
otherwise append (insertion order preserved). -/
def dictInsert {κ α : Type} [DecidableEq κ] (d : List (κ × α)) (k : κ) (v : α) :
    List (κ × α) :=
  if d.any (fun p => p.1 = k) then d.map (fun p => if p.1 = k then (k, v) else p)
  else d ++ [(k, v)]

/-- Python dict lookup `d.get(k)` / `d[k]` (the latter raising on `none`). -/
def dictGet? {κ α : Type} [DecidableEq κ] (d : List (κ × α)) (k : κ) : Option α :=
  (d.find? (fun p => decide (p.1 = k))).map (fun p => p.2)

/-- Python `s.strip()` (over the whitespace characters these pages use). -/
def pyStrip (s : String) : String :=
  (((s.toList.dropWhile Char.isWhitespace).reverse.dropWhile Char.isWhitespace).reverse).asString

/-- Replace every occurrence of the nonempty pattern `pat` by `repl`,
fuel-driven so that the recursion is structural. -/
def replaceAux (pat repl : List Char) : Nat → List Char → List Char
  | _, [] => []
  | 0, cs => cs
  | fuel + 1, c :: rest =>
    if pat ≠ [] ∧ pat.isPrefixOf (c :: rest) then
      repl ++ replaceAux pat repl fuel ((c :: rest).drop pat.length)
    else c :: replaceAux pat repl fuel rest

/-- Python `s.replace(pat, repl)` for a nonempty pattern. -/
def pyReplace (s pat repl : String) : String :=
  (replaceAux pat.toList repl.toList s.toList.length s.toList).asString

/-- Python `s.split(" ")`. -/
def pySplitSpace (s : String) : List String :=
  (s.toList.splitOn ' ').map List.asString

/-- Value of a nonempty all-digit character list, base 10. -/
def digitsToNat (cs : List Char) : Option Nat :=
  if cs ≠ [] ∧ cs.all Char.isDigit then
    some (cs.foldl (fun a c => a * 10 + (c.toNat - 48)) 0)
  else none

/-- The value Python `float()` yields on a decimal literal, kept as the
unnormalized fraction `num / den` with `den` a power of ten (Python floats
never undergo arithmetic in this module, only storage and display). -/
structure PyFloat where
  num : Int
  den : Nat
deriving DecidableEq, Repr

/-- Rational value of a parsed decimal. -/
def PyFloat.toRat (v : PyFloat) : ℚ := (v.num : ℚ) / (v.den : ℚ)

/-- Magnitude part of Python `float(s)` on a plain decimal literal: digits
with an optional fractional part (at least one digit overall), returned as
numerator and power-of-ten denominator. -/
def pyFloatMag (cs : List Char) : Option (Nat × Nat) :=
  match cs.splitOn '.' with
  | [w] => (digitsToNat w).map (fun n => (n, 1))
  | [w, f] =>
      if w.isEmpty && f.isEmpty then none
      else if w.all Char.isDigit && f.all Char.isDigit then
        some ((w.foldl (fun a c => a * 10 + (c.toNat - 48)) 0) * 10 ^ f.length
            + f.foldl (fun a c => a * 10 + (c.toNat - 48)) 0, 10 ^ f.length)
      else none
  | _ => none

/-- Python `float(s)` on the plain decimal literals produced by the device
pages (optional sign, digits, optional fractional part); `none` models the
`ValueError` raise on any other text. -/
def pyFloat (s : String) : Option PyFloat :=
  match s.toList with
  | '-' :: rest => (pyFloatMag rest).map (fun p => ⟨-(p.1 : Int), p.2⟩)
  | '+' :: rest => (pyFloatMag rest).map (fun p => ⟨(p.1 : Int), p.2⟩)
  | cs => (pyFloatMag cs).map (fun p => ⟨(p.1 : Int), p.2⟩)

/-- Python `int(s)` on plain decimal literals with optional sign. -/
def pyInt (s : String) : Option Int :=
  match s.toList with
  | '-' :: rest => (digitsToNat rest).map (fun n => -(n : Int))
  | '+' :: rest => (digitsToNat rest).map (fun n => (n : Int))
  | cs => (digitsToNat cs).map (fun n => (n : Int))

/-- Hexadecimal value of one character, if it is a hex digit. -/
def hexVal (c : Char) : Option Nat :=
  if '0' ≤ c ∧ c ≤ '9' then some (c.toNat - 48)
  else if 'a' ≤ c ∧ c ≤ 'f' then some (c.toNat - 87)
  else if 'A' ≤ c ∧ c ≤ 'F' then some (c.toNat - 55)
  else none

/-- Value of a nonempty all-hex-digit character list, base 16. -/
def hexDigitsToNat (cs : List Char) : Option Nat :=
  if cs = [] then none
  else cs.foldl (fun a c => do (← a) * 16 + (← hexVal c)) (some 0)

/-- Python `int(s, 16)`: optional sign, optional `0x` prefix, hex digits. -/
def pyIntHex (s : String) : Option Int :=
  let mag : List Char → Option Nat := fun cs =>
    match cs with
    | '0' :: 'x' :: rest => hexDigitsToNat rest
    | '0' :: 'X' :: rest => hexDigitsToNat rest
    | _ => hexDigitsToNat cs
  match s.toList with
  | '-' :: rest => (mag rest).map (fun n => -(n : Int))
  | '+' :: rest => (mag rest).map (fun n => (n : Int))
  | cs => (mag cs).map (fun n => (n : Int))

/-- Model of `PanelVersionInfo`: PV panel / optimizer version info.  Every field is
optional, mirroring the dataclass defaults of `None`. -/
structure PanelVersionInfo where
  label : Option String := none
  mac : Option String := none
  fw : Option String := none
  hw : Option String := none
deriving DecidableEq, Repr

/-- Model of `PanelVersionInfo.model`: substring-match the hardware revision against
the fixed table.  `none` models the `TypeError` Python raises when `hw` is
still `None`. -/
def PanelVersionInfo.model (p : PanelVersionInfo) : Option String :=
  match p.hw with
  | none => none
  | some hw =>
    if strContains hw "455" then some "TS4-A-M"
    else if strContains hw "461" || strContains hw "462" then some "TS4-A-O"
    else if strContains hw "466" then some "TS4-A-S"
    else if strContains hw "481" || strContains hw "486" || strContains hw "488" then
      some "TS4-A-F"
    else if strContains hw "484" || strContains hw "485" || strContains hw "487" then
      some "TS4-A-2F"
    else some "?"

/-- Model of `PanelStatus`: one live telemetry sample for a panel. -/
structure PanelStatus where
  mac : Option String := none
  label : Option String := none
  voltage_in : Option PyFloat := none
  voltage_out : Option PyFloat := none
  current : Option PyFloat := none
  power : Option PyFloat := none
  pwm : Option Int := none
  temperature : Option PyFloat := none
  status : Option Int := none
  rssi : Option Int := none
deriving DecidableEq, Repr

/-- Model of `TigoCcaStatus`: snapshot of the controller plus all panels.  The
`panels` dict is keyed by `PanelStatus.label`, which at runtime may be
`None`, hence the `Option String` keys. -/
structure TigoCcaStatus where
  unit_id : Option String := none
  hw_platform : Option String := none
  fw_version : Option String := none
  temperature : Option PyFloat := none
  panels : List (Option String × PanelStatus) := []
deriving DecidableEq, Repr

/-! ## HTML events and the generic table parser (`_TableParser`) -/

/-- One handler event delivered by the (external) stdlib HTML tokenizer. -/
inductive HtmlEvent where
  | startTag (tag : String) (attrs : List (String × String))
  | data (text : String)
  | endTag (tag : String)
deriving DecidableEq, Repr

/-- A fetched page, modelled as the tokenizer's event stream. -/
abbrev Page := List HtmlEvent

/-- Python `dict(attrs)`: later pairs win. -/
def pyDictOfPairs (attrs : List (String × String)) : List (String × String) :=
  attrs.foldl (fun d p => dictInsert d p.1 p.2) []

/-- The `_on_td` / `_on_tr_end` callbacks a `_TableParser` subclass installs,
acting on the subclass's own state `σ`. -/
structure TableCallbacks (σ : Type) where
  onTd : Nat → String → σ → Except PyErr σ
  onTrEnd : σ → Except PyErr σ

/-- The fields of `_TableParser`, plus the subclass state `σ`. -/
structure TableState (σ : Type) where
  in_table : Bool := false
  in_row : Bool := false
  td_nr : Nat := 0
  td_done : Bool := false
  page : σ
deriving DecidableEq, Repr

/-- Model of `_TableParser.handle_starttag`. -/
def handle_starttag {σ : Type} (tag : String) (attrs : List (String × String))
    (s : TableState σ) : TableState σ :=
  if tag = "table" ∧ dictGet? (pyDictOfPairs attrs) "class" = some "list_tb" then
    { s with in_table := true }
  else if tag = "tr" ∧ s.in_table = true then
    { s with in_row := true }
  else if tag = "td" ∧ s.in_row = true then
    { s with td_nr := s.td_nr + 1, td_done := false }
  else s

/-- Model of `_TableParser.handle_data`: deliver the text to `_on_td` once per cell,
skipping the `"n/a"` placeholder (which also leaves the cell undone). -/
def handle_data {σ : Type} (cb : TableCallbacks σ) (data : String)
    (s : TableState σ) : Except (PyErr × TableState σ) (TableState σ) :=
  if s.td_nr > 0 ∧ data ≠ "n/a" ∧ s.td_done = false then
    match cb.onTd s.td_nr data s.page with
    | .ok pg => .ok { s with td_done := true, page := pg }
    | .error e => .error (e, { s with td_done := true })
  else .ok s

/-- Model of `_TableParser.handle_endtag`. -/
def handle_endtag {σ : Type} (cb : TableCallbacks σ) (tag : String)
    (s : TableState σ) : Except (PyErr × TableState σ) (TableState σ) :=
  if tag = "table" ∧ s.in_table = true then .ok { s with in_table := false }
  else if tag = "tr" ∧ s.in_row = true ∧ s.td_nr > 0 then
    match cb.onTrEnd s.page with
    | .ok pg => .ok { s with page := pg, in_row := false, td_nr := 0 }
    | .error e => .error (e, s)
  else .ok s

/-- Dispatch one tokenizer event to the matching handler. -/
def tableStep {σ : Type} (cb : TableCallbacks σ) (s : TableState σ) :
    HtmlEvent → Except (PyErr × TableState σ) (TableState σ)
  | .startTag tag attrs => .ok (handle_starttag tag attrs s)
  | .data d => handle_data cb d s
  | .endTag tag => handle_endtag cb tag s

/-- Model of `HTMLParser.feed`: run the whole event stream; an uncaught exception in
a handler aborts the feed, the error carrying the state reached so far. -/
def feedEvents {σ : Type} (cb : TableCallbacks σ) (evs : List HtmlEvent)
    (s : TableState σ) : Except (PyErr × TableState σ) (TableState σ) :=
  match evs with
  | [] => .ok s
  | e :: rest =>
    match tableStep cb s e with
    | .ok s1 => feedEvents cb rest s1
    | .error es => .error es

/-! ## `_PanelsStatusPageParser` -/

/-- Subclass state of `_PanelsStatusPageParser`: the shared `TigoCcaStatus`
being filled, the record under construction and the last age text.  Neither
`_status` nor `_age` is reset between rows except where the source does so. -/
structure PanelsStatusState where
  cca : TigoCcaStatus
  status : Option PanelStatus := none
  age : Option String := none
deriving DecidableEq, Repr

/-- Access `self._status.<field>`: `AttributeError` when it is `None`. -/
def PanelsStatusState.setStatus (st : PanelsStatusState)
    (f : PanelStatus → Except PyErr PanelStatus) : Except PyErr PanelsStatusState :=
  match st.status with
  | none => .error .attributeError
  | some ps => (f ps).map fun ps' => { st with status := some ps' }

/-- Coerce a cell's text with a parser, `ValueError` on failure. -/
def coerce {α : Type} (p : String → Option α) (data : String) : Except PyErr α :=
  match p data with
  | none => .error .valueError
  | some v => .ok v

/-- Model of `_PanelsStatusPageParser._on_td` (the `match nr` becomes an equality
chain, which is how Python tests the literal patterns). -/
def panelsStatusOnTd (nr : Nat) (data : String) (st : PanelsStatusState) :
    Except PyErr PanelsStatusState :=
  if nr = 1 then .ok { st with status := some {} }
  else if nr = 2 then st.setStatus fun ps => .ok { ps with mac := some (pyStrip data) }
  else if nr = 3 then st.setStatus fun ps => .ok { ps with label := some (pyStrip data) }
  else if nr = 4 then .ok { st with age := some data }
  else if nr = 13 then
    st.setStatus fun ps => (coerce pyFloat data).map fun v => { ps with voltage_in := some v }
  else if nr = 14 then
    st.setStatus fun ps => (coerce pyFloat data).map fun v => { ps with voltage_out := some v }
  else if nr = 15 then
    st.setStatus fun ps => (coerce pyFloat data).map fun v => { ps with current := some v }
  else if nr = 16 then
    st.setStatus fun ps => (coerce pyFloat data).map fun v => { ps with power := some v }
  else if nr = 17 then
    st.setStatus fun ps => (coerce pyInt data).map fun v => { ps with pwm := some v }
  else if nr = 18 then
    st.setStatus fun ps => (coerce pyFloat data).map fun v => { ps with temperature := some v }
  else if nr = 21 then
    st.setStatus fun ps => (coerce pyIntHex data).map fun v => { ps with status := some v }
  else if nr = 22 then
    st.setStatus fun ps => (coerce pyInt data).map fun v => { ps with rssi := some v }
  else .ok st

/-- Model of `_PanelsStatusPageParser._on_tr_end`: keep the record only when the age
text contains neither `"hrs"` nor `"min"`; `TypeError` models
`"hrs" not in None` when no age cell was seen. -/
def panelsStatusOnTrEnd (st : PanelsStatusState) : Except PyErr PanelsStatusState :=
  match st.status with
  | none => .ok { st with status := none }
  | some ps =>
    match st.age with
    | none => .error .typeError
    | some age =>
      if strContains age "hrs" = false ∧ strContains age "min" = false then
        .ok { st with
              cca := { st.cca with panels := dictInsert st.cca.panels ps.label ps },
              status := none }
      else .ok { st with status := none }

/-- The `_PanelsStatusPageParser` callback table. -/
def panelsStatusCb : TableCallbacks PanelsStatusState :=
  { onTd := panelsStatusOnTd, onTrEnd := panelsStatusOnTrEnd }

/-! ## `_PanelsVersionPageParser` and `_PanelsInfoPageParser` -/

/-- Subclass state of `_PanelsVersionPageParser`.  The `infos` dict is keyed
by `PanelVersionInfo.label` (runtime value, so possibly `None`).  The source
never resets `_info` after a row, which the state mirrors. -/
structure PanelsVersionState where
  infos : List (Option String × PanelVersionInfo)
  info : Option PanelVersionInfo := none
deriving DecidableEq, Repr

/-- Access `self._info.<field>`: `AttributeError` when it is `None`. -/
def PanelsVersionState.setInfo (st : PanelsVersionState)
    (f : PanelVersionInfo → PanelVersionInfo) : Except PyErr PanelsVersionState :=
  match st.info with
  | none => .error .attributeError
  | some i => .ok { st with info := some (f i) }

/-- Model of `_PanelsVersionPageParser._on_td` (matches on `self._td_nr`, which equals
the `nr` argument at every call site). -/
def panelsVersionOnTd (nr : Nat) (data : String) (st : PanelsVersionState) :
    Except PyErr PanelsVersionState :=
  if nr = 1 then .ok { st with info := some {} }
  else if nr = 2 then st.setInfo fun i => { i with label := some data }
  else if nr = 7 then st.setInfo fun i => { i with fw := some data }
  else if nr = 9 then st.setInfo fun i => { i with hw := some data }
  else .ok st

/-- Model of `_PanelsVersionPageParser._on_tr_end`: store the record under its label.
The source stores a reference and keeps `_info` set; storing the value and
keeping `info` models this (no later claim-relevant path mutates the alias). -/
def panelsVersionOnTrEnd (st : PanelsVersionState) : Except PyErr PanelsVersionState :=
  match st.info with
  | none => .ok st
  | some i => .ok { st with infos := dictInsert st.infos i.label i }

/-- The `_PanelsVersionPageParser` callback table. -/
def panelsVersionCb : TableCallbacks PanelsVersionState :=
  { onTd := panelsVersionOnTd, onTrEnd := panelsVersionOnTrEnd }

/-- Subclass state of `_PanelsInfoPageParser`. -/
structure PanelsInfoState where
  infos : List (Option String × PanelVersionInfo)
  mac : Option String := none
deriving DecidableEq, Repr

/-- Model of `_PanelsInfoPageParser._on_td`: column 2 captures the mac, column 3 does
`self._infos[data.strip()].mac = self._mac`, which raises `KeyError` when the
stripped label is not a key of the dict. -/
def panelsInfoOnTd (nr : Nat) (data : String) (st : PanelsInfoState) :
    Except PyErr PanelsInfoState :=
  if nr = 2 then .ok { st with mac := some data }
  else if nr = 3 then
    match dictGet? st.infos (some (pyStrip data)) with
    | none => .error (.keyError (pyStrip data))
    | some i =>
      .ok { st with infos := dictInsert st.infos (some (pyStrip data)) { i with mac := st.mac } }
  else .ok st

/-- The `_PanelsInfoPageParser` callback table (row end inherited: no-op). -/
def panelsInfoCb : TableCallbacks PanelsInfoState :=
  { onTd := panelsInfoOnTd, onTrEnd := fun st => .ok st }

/-! ## `_CcaStatusPageParser` (summary page; not a `_TableParser`) -/

/-- Fields of `_CcaStatusPageParser` plus the `TigoCcaStatus` being filled. -/
structure CcaStatusParserState where
  cca : TigoCcaStatus := {}
  in_td : Bool := false
  was_temp_td : Bool := false
  was_fw_version : Bool := false
  was_hw_platform : Bool := false
deriving DecidableEq, Repr

/-- Model of `_CcaStatusPageParser.handle_data`: the `if`/`elif` caption chain. -/
def ccaHandleData (d : String) (s : CcaStatusParserState) :
    Except PyErr CcaStatusParserState :=
  if s.in_td = true ∧ d = "CC Temperature" then .ok { s with was_temp_td := true }
  else if s.in_td = true ∧ s.was_temp_td = true then
    (coerce pyFloat (pyReplace d " C" "")).map fun v =>
      { s with cca := { s.cca with temperature := some v }, was_temp_td := false }
  else if strContains d "Unit id" = true then
    match (pySplitSpace d).get? 2 with
    | none => .error .indexError
    | some t => .ok { s with cca := { s.cca with unit_id := some t } }
  else if strContains d "Firmware Version" = true then .ok { s with was_fw_version := true }
  else if d ≠ "" ∧ s.was_fw_version = true ∧ pyStrip d ≠ "0.0" then
    .ok { s with cca := { s.cca with fw_version := some (pyStrip d) }, was_fw_version := false }
  else if strContains d "Hardware Platform" = true then .ok { s with was_hw_platform := true }
  else if d ≠ "" ∧ s.was_hw_platform = true then
    .ok { s with cca := { s.cca with hw_platform := some (pyStrip d) }, was_hw_platform := false }
  else .ok s

/-- One tokenizer event for `_CcaStatusPageParser`: `<td>` opens a cell and
any end tag closes it. -/
def ccaStep (s : CcaStatusParserState) : HtmlEvent → Except PyErr CcaStatusParserState
  | .startTag tag _ => .ok (if tag = "td" then { s with in_td := true } else s)
  | .data d => ccaHandleData d s
  | .endTag _ => .ok { s with in_td := false }

/-- Feed a whole page to `_CcaStatusPageParser`. -/
def ccaFeed (evs : List HtmlEvent) (s : CcaStatusParserState) :
    Except PyErr CcaStatusParserState :=
  match evs with
  | [] => .ok s
  | e :: rest =>
    match ccaStep s e with
    | .ok s1 => ccaFeed rest s1
    | .error e1 => .error e1

/-! ## `TigoCCA` client -/

/-- Outcome of one HTTP GET at the transport level: a body (tokenized),
a `ServerDisconnectedError` carrying a message code, or any other
connection fault. -/
inductive ConnResult where
  | body (page : Page)
  | disconnected (code : Nat)
  | fault
deriving DecidableEq, Repr

/-- Transport failures `_get` lets propagate. -/
inductive TransportErr where
  | disconnected (code : Nat)
  | fault
deriving DecidableEq, Repr

/-- Failures a public client operation can surface. -/
inductive ClientErr where
  | transport (e : TransportErr)
  | py (e : PyErr)
deriving DecidableEq, Repr

/-- State of `TigoCCA`: root URL, optional basic auth, and the label-keyed
panel version mapping. -/
structure TigoCCA where
  url_root : String
  auth : Option (String × String)
  panels : List (Option String × PanelVersionInfo)
deriving DecidableEq, Repr

/-- Model of `TigoCCA.__init__`. -/
def TigoCCA.init (ip_address username password : String) : TigoCCA :=
  { url_root := "http://" ++ ip_address,
    auth := if username ≠ "" then some (username, password) else none,
    panels := [] }

/-- A transport maps a full URL to the outcome of `session.get` on it. -/
abbrev Transport := String → ConnResult

/-- Model of `TigoCCA._get`: return the body; swallow a `ServerDisconnectedError`
whose message code is 303 (the method then falls through and returns
`None`); re-raise every other fault. -/
def TigoCCA._get (c : TigoCCA) (transport : Transport) (url : String) :
    Except TransportErr (Option Page) :=
  match transport (c.url_root ++ url) with
  | .body p => .ok (some p)
  | .disconnected code =>
    if code ≠ 303 then .error (.disconnected code) else .ok none
  | .fault => .error .fault

/-- Model of `TigoCCA.read_config`: clear `self.panels`, feed the version page, then
feed the identity page into the same dict.  `parser.feed(None)` — the result
of a swallowed 303 disconnect — raises `TypeError` in Python. -/
def TigoCCA.read_config (c : TigoCCA) (transport : Transport) :
    Except ClientErr Unit × TigoCCA :=
  let c1 : TigoCCA := { c with panels := [] }
  match c1._get transport "/cgi-bin/meshnodever" with
  | .error e => (.error (.transport e), c1)
  | .ok none => (.error (.py .typeError), c1)
  | .ok (some pg) =>
    match feedEvents panelsVersionCb pg { page := { infos := c1.panels } } with
    | .error (e, st) => (.error (.py e), { c1 with panels := st.page.infos })
    | .ok st =>
      let c2 : TigoCCA := { c1 with panels := st.page.infos }
      match c2._get transport "/cgi-bin/meshnodeinfo" with
      | .error e => (.error (.transport e), c2)
      | .ok none => (.error (.py .typeError), c2)
      | .ok (some pg2) =>
        match feedEvents panelsInfoCb pg2 { page := { infos := c2.panels } } with
        | .error (e, st2) => (.error (.py e), { c2 with panels := st2.page.infos })
        | .ok st2 => (.ok (), { c2 with panels := st2.page.infos })

/-- Model of `TigoCCA.get_status`: parse the summary page into a fresh
`TigoCcaStatus`, then the live-status page into the same object's `panels`
dict; the client's own state is only read. -/
def TigoCCA.get_status (c : TigoCCA) (transport : Transport) :
    Except ClientErr TigoCcaStatus × TigoCCA :=
  match c._get transport "/cgi-bin/lmudui" with
  | .error e => (.error (.transport e), c)
  | .ok none => (.error (.py .typeError), c)
  | .ok (some pg) =>
    match ccaFeed pg {} with
    | .error e => (.error (.py e), c)
    | .ok cs =>
      match c._get transport "/cgi-bin/meshdatapower" with
      | .error e => (.error (.transport e), c)
      | .ok none => (.error (.py .typeError), c)
      | .ok (some pg2) =>
        match feedEvents panelsStatusCb pg2 { page := { cca := cs.cca } } with
        | .error (e1, _) => (.error (.py e1), c)
        | .ok st => (.ok st.page.cca, c)

/-- Model of `TigoCCA.turn_modules_off`: GET the control endpoint, result ignored. -/
def TigoCCA.turn_modules_off (c : TigoCCA) (transport : Transport) :
    Except ClientErr Unit × TigoCCA :=
  match c._get transport "/cgi-bin/lmudui?State=3" with
  | .error e => (.error (.transport e), c)
  | .ok _ => (.ok (), c)

/-- Model of `TigoCCA.turn_modules_on`: GET the control endpoint, result ignored. -/
def TigoCCA.turn_modules_on (c : TigoCCA) (transport : Transport) :
    Except ClientErr Unit × TigoCCA :=
  match c._get transport "/cgi-bin/lmudui?State=1" with
  | .error e => (.error (.transport e), c)
  | .ok _ => (.ok (), c)

/-! ## Synthetic pages -/

/-- Events of one `<td>` cell holding a single text node. -/
def cellEvents (text : String) : List HtmlEvent :=
  [.startTag "td" [], .data text, .endTag "td"]

/-- Events of one `<tr>` row of single-text cells. -/
def rowEvents (cells : List String) : List HtmlEvent :=
  .startTag "tr" [] :: ((cells.map cellEvents).flatten ++ [.endTag "tr"])

/-- Events of one active (`class="list_tb"`) table. -/
def tablePage (rows : List (List String)) : Page :=
  .startTag "table" [("class", "list_tb")] :: ((rows.map rowEvents).flatten ++ [.endTag "table"])

/-! ## Concrete inputs used by the theorems below -/

/-- A client for host `h` without credentials. -/
def hostCCA : TigoCCA := TigoCCA.init "h" "" ""

/-- The client of `hostCCA` holding one previously read panel entry. -/
def hostCCAWithPanel : TigoCCA :=
  { hostCCA with panels := [(some "P0", { label := some "P0" })] }

/-- A version-page row: label `P1`, firmware `1.2`, hardware `455-x`. -/
def versionPageRow : List String := ["r", "P1", "x", "x", "x", "x", "1.2", "x", "455-x"]

/-- An identity-page row: mac `AA:BB`, label `P1`. -/
def identityPageRow : List String := ["1", "AA:BB", "P1"]

/-- Transport serving the two configuration pages above. -/
def joinTransport : Transport := fun url =>
  if url = "http://h/cgi-bin/meshnodever" then .body (tablePage [versionPageRow])
  else if url = "http://h/cgi-bin/meshnodeinfo" then .body (tablePage [identityPageRow])
  else .fault

/-- Transport whose identity page references the unknown label `XX`. -/
def unknownLabelTransport : Transport := fun url =>
  if url = "http://h/cgi-bin/meshnodever" then .body (tablePage [versionPageRow])
  else if url = "http://h/cgi-bin/meshnodeinfo" then .body (tablePage [["1", "AA:BB", "XX"]])
  else .fault

/-- Transport on which every GET fails with a connection fault. -/
def faultTransport : Transport := fun _ => .fault

/-- Transport on which every GET ends in a disconnect with message code 303. -/
def disconnect303Transport : Transport := fun _ => .disconnected 303

/-- A summary page: `CC Temperature` / `23.5 C`, then a firmware-version
caption followed by the not-yet-available value `0.0`. -/
def summaryPage : Page :=
  cellEvents "CC Temperature" ++ cellEvents "23.5 C" ++
    cellEvents "Firmware Version" ++ cellEvents "0.0"

/-- Transport serving `summaryPage` and an empty live-status page. -/
def summaryTransport : Transport := fun url =>
  if url = "http://h/cgi-bin/lmudui" then .body summaryPage
  else if url = "http://h/cgi-bin/meshdatapower" then .body []
  else .fault

/-- A live-status row whose column 13 (voltage in) holds non-numeric text. -/
def badNumberRow : List String :=
  ["r", "m", "L", "1 s", "x", "x", "x", "x", "x", "x", "x", "x", "abc"]

/-- Transport serving an empty summary page and the `badNumberRow` page. -/
def badNumberTransport : Transport := fun url =>
  if url = "http://h/cgi-bin/lmudui" then .body []
  else if url = "http://h/cgi-bin/meshdatapower" then .body (tablePage [badNumberRow])
  else .fault

/-- A fresh live-status row whose column 13 is the `n/a` placeholder. -/
def placeholderRow : List String :=
  ["r", "04:C0", "A1", "5 s", "x", "x", "x", "x", "x", "x", "x", "x", "n/a"]

/-- Transport serving an empty summary page and the `placeholderRow` page. -/
def placeholderTransport : Transport := fun url =>
  if url = "http://h/cgi-bin/lmudui" then .body []
  else if url = "http://h/cgi-bin/meshdatapower" then .body (tablePage [placeholderRow])
  else .fault

/-- The version info `read_config` builds for `P1` from `joinTransport`. -/
def joinedInfo : PanelVersionInfo :=
  { label := some "P1", mac := some "AA:BB", fw := some "1.2", hw := some "455-x" }

/-- Trace instrumentation for the table parser: the subclass state records
every `(columnIndex, text)` pair delivered to `_on_td`. -/
def traceCb : TableCallbacks (List (Nat × String)) :=
  { onTd := fun nr d tr => .ok (tr ++ [(nr, d)]), onTrEnd := fun tr => .ok tr }

/-! ## Theorems -/

/-- C6: on a version page with one row (label `P1`, fw `1.2`, hw `455-x`)
and an identity page with one row (mac `AA:BB`, label `P1`), `read_config`
succeeds and yields a mapping whose `P1` entry carries the back-filled mac
`AA:BB`, and the entry's derived model is `TS4-A-M` because `455` occurs in
the hardware revision. -/
theorem read_config_joins_label_and_derives_model :
    (hostCCA.read_config joinTransport).1 = .ok () ∧
    dictGet? (hostCCA.read_config joinTransport).2.panels (some "P1") = some joinedInfo ∧
    joinedInfo.model = some "TS4-A-M" := by
  refine ⟨by decide, by decide, by decide⟩

/-- C8: `get_status` on a summary page with a `CC Temperature` cell followed
by a `23.5 C` cell stores temperature `23.5` (the ` C` unit stripped before
the numeric parse), and a firmware-version caption followed by `0.0` leaves
the firmware version unset. -/
theorem get_status_summary_strips_unit_and_skips_zero_fw :
    (hostCCA.get_status summaryTransport).1 =
      .ok { temperature := some { num := 235, den := 10 }, fw_version := none } ∧
    (PyFloat.mk 235 10).toRat = (23.5 : ℚ) := by
  exact ⟨by decide, by norm_num [PyFloat.toRat]⟩

/-- C9: on a live-status page whose column 13 (voltage in) holds the
non-numeric, non-placeholder text `abc`, the coercion failure is not caught:
the whole `get_status` read fails and the `ValueError` propagates to the
caller. -/
theorem get_status_bad_number_aborts_page :
    (hostCCA.get_status badNumberTransport).1 = .error (.py .valueError) := by
  decide

/-- C2 counterexample: with a previously stored mapping, a transport fault
on the very first page fetch of `read_config` leaves the mapping empty, not
"unchanged": the method clears `self.panels` before fetching anything. -/
theorem read_config_fault_clears_mapping_counterexample :
    (hostCCAWithPanel.read_config faultTransport).1 = .error (.transport .fault) ∧
    (hostCCAWithPanel.read_config faultTransport).2.panels = [] ∧
    hostCCAWithPanel.panels ≠ [] := by
  exact ⟨by decide, by decide, by decide⟩

/-- C2 amended: `read_config` resets the stored mapping to empty before any
fetch; when the first page fetch fails with a transport failure, the failure
propagates to the caller and the mapping is left empty — the previous
mapping is not restored. -/
theorem read_config_transport_failure_leaves_empty_mapping :
    ∀ (c : TigoCCA) (transport : Transport) (e : TransportErr),
      c._get transport "/cgi-bin/meshnodever" = .error e →
      c.read_config transport = (.error (.transport e), { c with panels := [] }) := by
  intro c transport e h
  have h2 : ({ c with panels := [] } : TigoCCA)._get transport "/cgi-bin/meshnodever" =
      .error e := h
  simp only [TigoCCA.read_config, h2]

/-- C2 amended, witness at a concrete client and transport. -/
theorem read_config_transport_failure_leaves_empty_mapping_witness :
    hostCCAWithPanel.read_config faultTransport =
      (.error (.transport .fault), { hostCCAWithPanel with panels := [] }) :=
  read_config_transport_failure_leaves_empty_mapping hostCCAWithPanel faultTransport
    .fault (by decide)

/-- C3 counterexample: an identity-page row whose label `XX` is not a key of
the version map makes `read_config` fail with `KeyError`, instead of being
ignored as a no-op; entries built before the failing row are retained. -/
theorem read_config_unknown_label_raises_counterexample :
    (hostCCA.read_config unknownLabelTransport).1 = .error (.py (.keyError "XX")) ∧
    dictGet? (hostCCA.read_config unknownLabelTransport).2.panels (some "P1") =
      some { label := some "P1", fw := some "1.2", hw := some "455-x" } := by
  exact ⟨by decide, by decide⟩

/-- C3 amended: an identity-page row whose (stripped) label column is not a
key of the version map raises `KeyError` at column 3 — the page read fails
and the error propagates — rather than being ignored. -/
theorem info_page_unknown_label_raises_keyerror :
    ∀ (data : String) (st : PanelsInfoState),
      dictGet? st.infos (some (pyStrip data)) = none →
      panelsInfoOnTd 3 data st = .error (.keyError (pyStrip data)) := by
  intro data st h
  simp only [panelsInfoOnTd, h]
  norm_num

/-- C3 amended, witness at a concrete row and map. -/
theorem info_page_unknown_label_raises_keyerror_witness :
    panelsInfoOnTd 3 "XX" { infos := [(some "P1", joinedInfo)] } =
      .error (.keyError (pyStrip "XX")) :=
  info_page_unknown_label_raises_keyerror "XX" { infos := [(some "P1", joinedInfo)] }
    (by decide)

/-- C4: the placeholder `n/a` is never delivered to `_on_td` — feeding it
leaves any table-parser state exactly unchanged, whatever the callbacks —
and consequently the matching field stays unset: on a live-status row whose
column 13 is `n/a`, the stored record's `voltage_in` is `none`, not zero. -/
theorem na_placeholder_never_delivered :
    (∀ (σ : Type) (cb : TableCallbacks σ) (s : TableState σ),
        handle_data cb "n/a" s = .ok s) ∧
    (hostCCA.get_status placeholderTransport).1 =
      .ok { panels := [(some "A1", { mac := some "04:C0", label := some "A1" })] } ∧
    ({ mac := some "04:C0", label := some "A1" } : PanelStatus).voltage_in = none := by
  refine ⟨fun σ cb s => ?_, by decide, rfl⟩
  simp [handle_data]

/-- C5: a peer disconnect whose message code is 303 is swallowed by `_get`,
so `turn_modules_off` against such a transport completes successfully; a
disconnect with any other code, and any other connection fault, propagate
as transport failures. -/
theorem turn_modules_off_disconnect303_succeeds :
    (∀ (c : TigoCCA) (transport : Transport),
        transport (c.url_root ++ "/cgi-bin/lmudui?State=3") = .disconnected 303 →
        c.turn_modules_off transport = (.ok (), c)) ∧
    (∀ (c : TigoCCA) (transport : Transport) (url : String) (code : Nat),
        transport (c.url_root ++ url) = .disconnected code → code ≠ 303 →
        c._get transport url = .error (.disconnected code)) ∧
    (∀ (c : TigoCCA) (transport : Transport) (url : String),
        transport (c.url_root ++ url) = .fault →
        c._get transport url = .error .fault) := by
  refine ⟨fun c transport h => ?_, fun c transport url code h hc => ?_, fun c transport url h => ?_⟩
  · simp only [TigoCCA.turn_modules_off, TigoCCA._get, h]
    norm_num
  · simp only [TigoCCA._get, h]
    simp [hc]
  · simp only [TigoCCA._get, h]

/-- C5, witness: concrete 303-disconnect and non-303 fault transports. -/
theorem turn_modules_off_disconnect303_succeeds_witness :
    hostCCA.turn_modules_off disconnect303Transport = (.ok (), hostCCA) ∧
    hostCCA._get (fun _ => .disconnected 302) "/x" = .error (.disconnected 302) ∧
    hostCCA._get faultTransport "/x" = .error .fault :=
  ⟨turn_modules_off_disconnect303_succeeds.1 hostCCA disconnect303Transport rfl,
   turn_modules_off_disconnect303_succeeds.2.1 hostCCA (fun _ => .disconnected 302) "/x" 302
     rfl (by decide),
   turn_modules_off_disconnect303_succeeds.2.2 hostCCA faultTransport "/x" rfl⟩

/-- The transport helper `_get` reads only the URL root and credentials, never the stored panel
mapping. -/
theorem get_ignores_panels (c : TigoCCA) (transport : Transport)
    (p : List (Option String × PanelVersionInfo)) (url : String) :
    ({ c with panels := p } : TigoCCA)._get transport url = c._get transport url := rfl

/-- C10: `get_status` builds and returns a fresh snapshot: the client state
(in particular its stored label-to-version mapping) is identical before and
after the call, and the returned snapshot does not depend on the stored
mapping at all. -/
theorem get_status_leaves_client_unchanged :
    ∀ (c : TigoCCA) (transport : Transport),
      (c.get_status transport).2 = c ∧
      ∀ (p : List (Option String × PanelVersionInfo)),
        (({ c with panels := p } : TigoCCA).get_status transport).1 =
          (c.get_status transport).1 := by
  intro c transport
  constructor
  · unfold TigoCCA.get_status
    repeat' split
    all_goals rfl
  · intro p
    unfold TigoCCA.get_status
    rw [get_ignores_panels c transport p "/cgi-bin/lmudui",
        get_ignores_panels c transport p "/cgi-bin/meshdatapower"]
    rcases c._get transport "/cgi-bin/lmudui" with e | op
    · rfl
    · rcases op with _ | pg
      · rfl
      · simp only
        rcases ccaFeed pg {} with e1 | cs
        · rfl
        · simp only
          rcases c._get transport "/cgi-bin/meshdatapower" with e2 | op2
          · rfl
          · rcases op2 with _ | pg2
            · rfl
            · simp only
              rcases feedEvents panelsStatusCb pg2 { page := { cca := cs.cca } } with e3 | st
              · rfl
              · rfl

/-- Feeding a concatenation of event streams composes. -/
theorem feedEvents_append {σ : Type} (cb : TableCallbacks σ) (l1 l2 : List HtmlEvent)
    (s : TableState σ) :
    feedEvents cb (l1 ++ l2) s =
      match feedEvents cb l1 s with
      | .ok s1 => feedEvents cb l2 s1
      | .error es => .error es := by
  induction l1 generalizing s with
  | nil => simp [feedEvents]
  | cons e rest ih =>
    simp only [List.cons_append, feedEvents]
    rcases tableStep cb s e with es | s1
    · rfl
    · exact ih s1

/-- Running `feedEvents` over an append whose first part succeeds. -/
theorem feedEvents_append_ok {σ : Type} {cb : TableCallbacks σ} {l1 l2 : List HtmlEvent}
    {s s1 : TableState σ} (h : feedEvents cb l1 s = .ok s1) :
    feedEvents cb (l1 ++ l2) s = feedEvents cb l2 s1 := by
  rw [feedEvents_append, h]

/-- Running `feedEvents` over an append whose first part fails. -/
theorem feedEvents_append_err {σ : Type} {cb : TableCallbacks σ} {l1 l2 : List HtmlEvent}
    {s : TableState σ} {es : PyErr × TableState σ} (h : feedEvents cb l1 s = .error es) :
    feedEvents cb (l1 ++ l2) s = .error es := by
  rw [feedEvents_append, h]

/-- A successful `setStatus` changes only the record under construction. -/
theorem setStatus_ok {st st' : PanelsStatusState} {f : PanelStatus → Except PyErr PanelStatus}
    (h : st.setStatus f = .ok st') : st'.cca = st.cca ∧ st'.age = st.age := by
  obtain ⟨cca, status, age⟩ := st
  cases status with
  | none => simp [PanelsStatusState.setStatus] at h
  | some ps =>
    simp only [PanelsStatusState.setStatus] at h
    rcases hf : f ps with e | ps2
    · rw [hf] at h
      exact Except.noConfusion h
    · rw [hf] at h
      simp only [Except.map] at h
      injection h with h2
      subst h2
      exact ⟨rfl, rfl⟩

/-- The `_on_td` of the live-status parser never touches the snapshot's panel
dict; it writes the age only at column 4 and there writes exactly the cell
text. -/
theorem panelsStatusOnTd_panels {nr : Nat} {data : String} {st st' : PanelsStatusState}
    (hok : panelsStatusOnTd nr data st = .ok st') :
    st'.cca.panels = st.cca.panels ∧
    (nr ≠ 4 → st'.age = st.age) ∧ (nr = 4 → st'.age = some data) := by
  unfold panelsStatusOnTd at hok
  by_cases q1 : nr = 1
  · rw [if_pos q1] at hok
    injection hok with h
    subst h
    exact ⟨rfl, fun _ => rfl, fun hh => by exfalso; omega⟩
  rw [if_neg q1] at hok
  by_cases q2 : nr = 2
  · rw [if_pos q2] at hok
    obtain ⟨hc, ha⟩ := setStatus_ok hok
    exact ⟨by rw [hc], fun _ => ha, fun hh => by exfalso; omega⟩
  rw [if_neg q2] at hok
  by_cases q3 : nr = 3
  · rw [if_pos q3] at hok
    obtain ⟨hc, ha⟩ := setStatus_ok hok
    exact ⟨by rw [hc], fun _ => ha, fun hh => by exfalso; omega⟩
  rw [if_neg q3] at hok
  by_cases q4 : nr = 4
  · rw [if_pos q4] at hok
    injection hok with h
    subst h
    exact ⟨rfl, fun hne => absurd q4 hne, fun _ => rfl⟩
  rw [if_neg q4] at hok
  by_cases q5 : nr = 13
  · rw [if_pos q5] at hok
    obtain ⟨hc, ha⟩ := setStatus_ok hok
    exact ⟨by rw [hc], fun _ => ha, fun hh => by exfalso; omega⟩
  rw [if_neg q5] at hok
  by_cases q6 : nr = 14
  · rw [if_pos q6] at hok
    obtain ⟨hc, ha⟩ := setStatus_ok hok
    exact ⟨by rw [hc], fun _ => ha, fun hh => by exfalso; omega⟩
  rw [if_neg q6] at hok
  by_cases q7 : nr = 15
  · rw [if_pos q7] at hok
    obtain ⟨hc, ha⟩ := setStatus_ok hok
    exact ⟨by rw [hc], fun _ => ha, fun hh => by exfalso; omega⟩
  rw [if_neg q7] at hok
  by_cases q8 : nr = 16
  · rw [if_pos q8] at hok
    obtain ⟨hc, ha⟩ := setStatus_ok hok
    exact ⟨by rw [hc], fun _ => ha, fun hh => by exfalso; omega⟩
  rw [if_neg q8] at hok
  by_cases q9 : nr = 17
  · rw [if_pos q9] at hok
    obtain ⟨hc, ha⟩ := setStatus_ok hok
    exact ⟨by rw [hc], fun _ => ha, fun hh => by exfalso; omega⟩
  rw [if_neg q9] at hok
  by_cases q10 : nr = 18
  · rw [if_pos q10] at hok
    obtain ⟨hc, ha⟩ := setStatus_ok hok
    exact ⟨by rw [hc], fun _ => ha, fun hh => by exfalso; omega⟩
  rw [if_neg q10] at hok
  by_cases q11 : nr = 21
  · rw [if_pos q11] at hok
    obtain ⟨hc, ha⟩ := setStatus_ok hok
    exact ⟨by rw [hc], fun _ => ha, fun hh => by exfalso; omega⟩
  rw [if_neg q11] at hok
  by_cases q12 : nr = 22
  · rw [if_pos q12] at hok
    obtain ⟨hc, ha⟩ := setStatus_ok hok
    exact ⟨by rw [hc], fun _ => ha, fun hh => by exfalso; omega⟩
  rw [if_neg q12] at hok
  injection hok with h
  subst h
  exact ⟨rfl, fun _ => rfl, fun hh => absurd hh q4⟩

/-- Unfolding `feedEvents` over one successful step. -/
theorem feedEvents_step_ok {σ : Type} (cb : TableCallbacks σ) (e : HtmlEvent)
    (rest : List HtmlEvent) (s s1 : TableState σ) (h : tableStep cb s e = .ok s1) :
    feedEvents cb (e :: rest) s = feedEvents cb rest s1 := by
  rw [feedEvents, h]

/-- Unfolding `feedEvents` over one failing step. -/
theorem feedEvents_step_err {σ : Type} (cb : TableCallbacks σ) (e : HtmlEvent)
    (rest : List HtmlEvent) (s : TableState σ) {es : PyErr × TableState σ}
    (h : tableStep cb s e = .error es) :
    feedEvents cb (e :: rest) s = .error es := by
  rw [feedEvents, h]

/-- A `<td>` inside a row bumps the column counter and reopens the cell. -/
theorem handle_starttag_td {σ : Type} (s : TableState σ) (hrow : s.in_row = true) :
    handle_starttag "td" [] s = { s with td_nr := s.td_nr + 1, td_done := false } := by
  unfold handle_starttag
  rw [if_neg (fun h => absurd h.1 (by decide)), if_neg (fun h => absurd h.1 (by decide)),
    if_pos ⟨rfl, hrow⟩]

/-- A `<tr>` inside an active table opens a row. -/
theorem handle_starttag_tr {σ : Type} (s : TableState σ) (htab : s.in_table = true) :
    handle_starttag "tr" [] s = { s with in_row := true } := by
  unfold handle_starttag
  rw [if_neg (fun h => absurd h.1 (by decide)), if_pos ⟨rfl, htab⟩]

/-- A `</td>` end tag is a no-op for the table parser. -/
theorem handle_endtag_td {σ : Type} (cb : TableCallbacks σ) (s : TableState σ) :
    handle_endtag cb "td" s = .ok s := by
  unfold handle_endtag
  rw [if_neg (fun h => absurd h.1 (by decide)), if_neg (fun h => absurd h.1 (by decide))]

/-- A `</tr>` after at least one cell fires the row-end callback and closes
the row. -/
theorem handle_endtag_tr {σ : Type} (cb : TableCallbacks σ) (s : TableState σ)
    (hrow : s.in_row = true) (hnr : 0 < s.td_nr) :
    handle_endtag cb "tr" s =
      match cb.onTrEnd s.page with
      | .ok pg => .ok { s with page := pg, in_row := false, td_nr := 0 }
      | .error e => .error (e, s) := by
  unfold handle_endtag
  rw [if_neg (fun h => absurd h.1 (by decide)), if_pos ⟨rfl, hrow, hnr⟩]

/-- The placeholder `n/a` is never delivered: the state is left untouched. -/
theorem handle_data_na {σ : Type} (cb : TableCallbacks σ) (s : TableState σ) :
    handle_data cb "n/a" s = .ok s := by
  unfold handle_data
  rw [if_neg (fun h => absurd rfl h.2.1)]

/-- Inside a fresh cell, any non-placeholder text is delivered to `_on_td`
exactly once. -/
theorem handle_data_deliver {σ : Type} (cb : TableCallbacks σ) (t : String)
    (s : TableState σ) (ht : t ≠ "n/a") (hdone : s.td_done = false)
    (hnr : 0 < s.td_nr) :
    handle_data cb t s =
      match cb.onTd s.td_nr t s.page with
      | .ok pg => .ok { s with td_done := true, page := pg }
      | .error e => .error (e, { s with td_done := true }) := by
  unfold handle_data
  rw [if_pos ⟨hnr, ht, hdone⟩]

/-- One single-text cell of the live-status page: a successful run bumps the
column counter, keeps the row open, preserves the snapshot's panel dict, and
updates the age exactly when the cell is column 4. -/
theorem cell_run {t : String} {s s' : TableState PanelsStatusState}
    (hrow : s.in_row = true)
    (hok : feedEvents panelsStatusCb (cellEvents t) s = .ok s') :
    s'.in_table = s.in_table ∧ s'.in_row = true ∧ s'.td_nr = s.td_nr + 1 ∧
    s'.page.cca.panels = s.page.cca.panels ∧
    (s.td_nr + 1 ≠ 4 → s'.page.age = s.page.age) ∧
    (s.td_nr + 1 = 4 → t ≠ "n/a" → s'.page.age = some t) := by
  have e1 : tableStep panelsStatusCb s (.startTag "td" []) =
      .ok { s with td_nr := s.td_nr + 1, td_done := false } := by
    show Except.ok (handle_starttag "td" [] s) = _
    rw [handle_starttag_td s hrow]
  rw [show cellEvents t = [.startTag "td" [], .data t, .endTag "td"] from rfl,
    feedEvents_step_ok _ _ _ _ _ e1] at hok
  by_cases ht : t = "n/a"
  · subst ht
    rw [feedEvents_step_ok _ _ _ _ _
        (show tableStep panelsStatusCb { s with td_nr := s.td_nr + 1, td_done := false }
            (.data "n/a") = .ok { s with td_nr := s.td_nr + 1, td_done := false } from
          handle_data_na panelsStatusCb { s with td_nr := s.td_nr + 1, td_done := false }),
      feedEvents_step_ok _ _ _ _ _
        (show tableStep panelsStatusCb { s with td_nr := s.td_nr + 1, td_done := false }
            (.endTag "td") = .ok { s with td_nr := s.td_nr + 1, td_done := false } from
          handle_endtag_td panelsStatusCb { s with td_nr := s.td_nr + 1, td_done := false }),
      feedEvents] at hok
    injection hok with h
    subst h
    exact ⟨rfl, hrow, rfl, rfl, fun _ => rfl, fun _ hne => absurd rfl hne⟩
  · rcases hcall : panelsStatusOnTd (s.td_nr + 1) t s.page with e | pg
    · rw [feedEvents_step_err _ _ _ _ (show tableStep panelsStatusCb
          { s with td_nr := s.td_nr + 1, td_done := false } (.data t) = .error
            (e, { s with td_nr := s.td_nr + 1, td_done := true }) by
        show handle_data panelsStatusCb t _ = _
        rw [handle_data_deliver _ t _ ht rfl (Nat.succ_pos _)]
        simp only [panelsStatusCb]
        rw [hcall])] at hok
      exact Except.noConfusion hok
    · rw [feedEvents_step_ok _ _ _ _ _ (show tableStep panelsStatusCb
          { s with td_nr := s.td_nr + 1, td_done := false } (.data t) = .ok
            { s with td_nr := s.td_nr + 1, td_done := true, page := pg } by
        show handle_data panelsStatusCb t _ = _
        rw [handle_data_deliver _ t _ ht rfl (Nat.succ_pos _)]
        simp only [panelsStatusCb]
        rw [hcall]),
        feedEvents_step_ok _ _ _ _ _
          (show tableStep panelsStatusCb
              { s with td_nr := s.td_nr + 1, td_done := true, page := pg } (.endTag "td") =
              .ok { s with td_nr := s.td_nr + 1, td_done := true, page := pg } from
            handle_endtag_td panelsStatusCb
              { s with td_nr := s.td_nr + 1, td_done := true, page := pg }),
        feedEvents] at hok
      injection hok with h
      subst h
      obtain ⟨hp, ha1, ha2⟩ := panelsStatusOnTd_panels hcall
      exact ⟨rfl, hrow, rfl, hp, ha1, fun h4 _ => ha2 h4⟩

/-- Running any further cells of a row (all at column ≥ 5) preserves both
the panel dict and the stored age. -/
theorem cells_run {cells : List String} {s s' : TableState PanelsStatusState}
    (hrow : s.in_row = true) (h4 : 4 ≤ s.td_nr)
    (hok : feedEvents panelsStatusCb (cells.map cellEvents).flatten s = .ok s') :
    s'.in_table = s.in_table ∧ s'.in_row = true ∧ 4 ≤ s'.td_nr ∧
    s'.page.cca.panels = s.page.cca.panels ∧ s'.page.age = s.page.age := by
  induction cells generalizing s with
  | nil =>
    simp only [List.map_nil, List.flatten_nil, feedEvents] at hok
    injection hok with h
    subst h
    exact ⟨rfl, hrow, h4, rfl, rfl⟩
  | cons t rest ih =>
    simp only [List.map_cons, List.flatten_cons] at hok
    rcases hmid : feedEvents panelsStatusCb (cellEvents t) s with es | s1
    · rw [feedEvents_append_err hmid] at hok
      exact Except.noConfusion hok
    · rw [feedEvents_append_ok hmid] at hok
      obtain ⟨hit, hir, htd, hp, hage1, _⟩ := cell_run hrow hmid
      obtain ⟨i1, i2, i3, i4, i5⟩ := ih hir (by omega) hok
      refine ⟨by rw [i1, hit], i2, by omega, by rw [i4, hp], ?_⟩
      rw [i5, hage1 (by omega)]

/-- A row whose age text contains `hrs` or `min` is discarded at row end:
the snapshot's panel dict is left exactly as it was. -/
theorem panelsStatusOnTrEnd_stale {st st' : PanelsStatusState} {a : String}
    (ha : st.age = some a)
    (hstale : strContains a "hrs" = true ∨ strContains a "min" = true)
    (hok : panelsStatusOnTrEnd st = .ok st') : st'.cca.panels = st.cca.panels := by
  obtain ⟨cca, status, age⟩ := st
  replace ha : age = some a := ha
  subst ha
  cases status with
  | none =>
    simp only [panelsStatusOnTrEnd] at hok
    injection hok with h
    subst h
    rfl
  | some ps =>
    simp only [panelsStatusOnTrEnd] at hok
    rw [if_neg (fun hcc => by
      rcases hstale with h | h
      · exact Bool.noConfusion (h.symm.trans hcc.1)
      · exact Bool.noConfusion (h.symm.trans hcc.2))] at hok
    injection hok with h
    subst h
    rfl

/-- C1: a live-status table row whose age-text cell (column 4) contains the
substring `hrs` or `min` contributes no entry to the snapshot's panel
mapping, regardless of the values in its other columns: after the whole row
is processed, the mapping is exactly what it was before the row. -/
theorem stale_row_contributes_no_panel :
    ∀ (c1 c2 c3 a : String) (rest : List String) (s s' : TableState PanelsStatusState),
      s.in_table = true → s.in_row = false → s.td_nr = 0 →
      (strContains a "hrs" = true ∨ strContains a "min" = true) →
      feedEvents panelsStatusCb (rowEvents (c1 :: c2 :: c3 :: a :: rest)) s = .ok s' →
      s'.page.cca.panels = s.page.cca.panels := by
  intro c1 c2 c3 a rest s s' htab hnorow h0 hstale hok
  have hane : a ≠ "n/a" := by
    intro he
    subst he
    rcases hstale with h | h
    · exact absurd h (by decide)
    · exact absurd h (by decide)
  rw [show rowEvents (c1 :: c2 :: c3 :: a :: rest) =
      .startTag "tr" [] :: (((c1 :: c2 :: c3 :: a :: rest).map cellEvents).flatten ++
        [.endTag "tr"]) from rfl,
    feedEvents_step_ok _ _ _ _ _ (show tableStep panelsStatusCb s (.startTag "tr" []) =
      .ok { s with in_row := true } from by
        show Except.ok (handle_starttag "tr" [] s) = _
        rw [handle_starttag_tr s htab])] at hok
  simp only [List.map_cons, List.flatten_cons, List.append_assoc] at hok
  have h0a : ({ s with in_row := true } : TableState PanelsStatusState).td_nr = 0 := h0
  rcases h1 : feedEvents panelsStatusCb (cellEvents c1) { s with in_row := true } with es | s1
  · rw [feedEvents_append_err h1] at hok
    exact Except.noConfusion hok
  rw [feedEvents_append_ok h1] at hok
  obtain ⟨a1, a2, a3, a4, a5, a6⟩ := cell_run rfl h1
  rcases h2 : feedEvents panelsStatusCb (cellEvents c2) s1 with es | s2
  · rw [feedEvents_append_err h2] at hok
    exact Except.noConfusion hok
  rw [feedEvents_append_ok h2] at hok
  obtain ⟨b1, b2, b3, b4, b5, b6⟩ := cell_run a2 h2
  rcases h3 : feedEvents panelsStatusCb (cellEvents c3) s2 with es | s3
  · rw [feedEvents_append_err h3] at hok
    exact Except.noConfusion hok
  rw [feedEvents_append_ok h3] at hok
  obtain ⟨d1, d2, d3, d4, d5, d6⟩ := cell_run b2 h3
  rcases h4c : feedEvents panelsStatusCb (cellEvents a) s3 with es | s4
  · rw [feedEvents_append_err h4c] at hok
    exact Except.noConfusion hok
  rw [feedEvents_append_ok h4c] at hok
  obtain ⟨f1, f2, f3, f4, f5, f6⟩ := cell_run d2 h4c
  have hage4 : s4.page.age = some a := f6 (by omega) hane
  rcases h5 : feedEvents panelsStatusCb ((rest.map cellEvents).flatten) s4 with es | s5
  · rw [feedEvents_append_err h5] at hok
    exact Except.noConfusion hok
  rw [feedEvents_append_ok h5] at hok
  obtain ⟨g1, g2, g3, g4, g5⟩ := cells_run f2 (by omega) h5
  have hage5 : s5.page.age = some a := by rw [g5, hage4]
  rcases hend : panelsStatusOnTrEnd s5.page with e | pg
  · rw [feedEvents_step_err _ _ _ _ (show tableStep panelsStatusCb s5 (.endTag "tr") =
        .error (e, s5) from by
      show handle_endtag panelsStatusCb "tr" s5 = _
      rw [handle_endtag_tr panelsStatusCb s5 g2 (by omega)]
      simp only [panelsStatusCb]
      rw [hend])] at hok
    exact Except.noConfusion hok
  · rw [feedEvents_step_ok _ _ _ _ _ (show tableStep panelsStatusCb s5 (.endTag "tr") =
        .ok { s5 with page := pg, in_row := false, td_nr := 0 } from by
      show handle_endtag panelsStatusCb "tr" s5 = _
      rw [handle_endtag_tr panelsStatusCb s5 g2 (by omega)]
      simp only [panelsStatusCb]
      rw [hend]), feedEvents] at hok
    injection hok with h
    subst h
    show pg.cca.panels = s.page.cca.panels
    rw [panelsStatusOnTrEnd_stale hage5 hstale hend, g4, f4, d4, b4, a4]

/-- C1 witness: a concrete four-cell row with age `2 hrs`, processed from a
fresh in-table state, leaves the (empty) panel mapping empty. -/
theorem stale_row_contributes_no_panel_witness :
    ({ in_table := true, in_row := false, td_nr := 0, td_done := true,
       page := { cca := {}, status := none, age := some "2 hrs" } } :
        TableState PanelsStatusState).page.cca.panels =
      ({ in_table := true, page := { cca := {} } } :
        TableState PanelsStatusState).page.cca.panels :=
  stale_row_contributes_no_panel "r" "m" "A1" "2 hrs" []
    { in_table := true, page := { cca := {} } }
    { in_table := true, in_row := false, td_nr := 0, td_done := true,
      page := { cca := {}, status := none, age := some "2 hrs" } }
    rfl rfl rfl (Or.inl (by decide)) (by decide)

/-- After the first delivery in a cell, all later text nodes of that cell
are ignored: the parser state is unchanged. -/
theorem trace_skip_done (ts : List String) (s : TableState (List (Nat × String)))
    (hdone : s.td_done = true) :
    feedEvents traceCb (ts.map HtmlEvent.data) s = .ok s := by
  induction ts with
  | nil => rw [List.map_nil, feedEvents]
  | cons t rest ih =>
    rw [List.map_cons, feedEvents_step_ok _ _ _ _ _ (show tableStep traceCb s (.data t) =
        .ok s from by
      show handle_data traceCb t s = .ok s
      unfold handle_data
      rw [if_neg (fun h => Bool.noConfusion (hdone.symm.trans h.2.2))])]
    exact ih

/-- The placeholder fails the first-text search predicate. -/
theorem findFirst_cons_na (rest : List String) :
    List.find? (fun x => decide (x ≠ "n/a")) ("n/a" :: rest) =
      List.find? (fun x => decide (x ≠ "n/a")) rest := rfl

/-- A non-placeholder text is found immediately. -/
theorem findFirst_cons_ne (t : String) (rest : List String) (ht : t ≠ "n/a") :
    List.find? (fun x => decide (x ≠ "n/a")) (t :: rest) = some t := by
  simp only [List.find?]
  rw [decide_eq_true ht]

/-- Inside an open cell with nothing delivered yet, a run of text nodes
delivers exactly the first non-placeholder one, recorded in the trace. -/
theorem trace_deliver (ts : List String) (s : TableState (List (Nat × String)))
    (hnr : 0 < s.td_nr) (hdone : s.td_done = false) :
    feedEvents traceCb (ts.map HtmlEvent.data) s =
      .ok (match ts.find? (fun t => decide (t ≠ "n/a")) with
           | none => s
           | some t => { s with td_done := true, page := s.page ++ [(s.td_nr, t)] }) := by
  induction ts with
  | nil =>
    rw [List.map_nil, feedEvents]
    rfl
  | cons t rest ih =>
    by_cases ht : t = "n/a"
    · subst ht
      rw [List.map_cons, feedEvents_step_ok _ _ _ _ _ (show tableStep traceCb s
          (.data "n/a") = .ok s from handle_data_na traceCb s), ih,
        findFirst_cons_na rest]
    · rw [List.map_cons, feedEvents_step_ok _ _ _ _ _ (show tableStep traceCb s (.data t) =
          .ok { s with td_done := true, page := s.page ++ [(s.td_nr, t)] } from by
        show handle_data traceCb t s = _
        rw [handle_data_deliver traceCb t s ht hdone hnr]
        rfl),
        trace_skip_done rest _ rfl,
        findFirst_cons_ne t rest ht]

/-- C7: for every cell of an active table, `_on_td` is invoked exactly once,
with the first non-placeholder text node of the cell, and every later text
node of the same cell is ignored.  The hypothesis that no text node is empty
is the stdlib tokenizer's invariant (it never emits empty data), under which
"first non-placeholder" coincides with the spec's "first non-empty,
non-placeholder" text. -/
theorem cell_delivers_first_text_once :
    ∀ (ts : List String) (s : TableState (List (Nat × String))),
      s.in_row = true → (∀ t ∈ ts, t ≠ "") →
      feedEvents traceCb (HtmlEvent.startTag "td" [] :: ts.map HtmlEvent.data) s =
        .ok (match ts.find? (fun t => decide (t ≠ "n/a")) with
             | none => { s with td_nr := s.td_nr + 1, td_done := false }
             | some t => { s with td_nr := s.td_nr + 1, td_done := true, page := s.page ++ [(s.td_nr + 1, t)] }) := by
  intro ts s hrow _hemp
  rw [feedEvents_step_ok _ _ _ _ _ (show tableStep traceCb s (.startTag "td" []) =
      .ok { s with td_nr := s.td_nr + 1, td_done := false } from by
        show Except.ok (handle_starttag "td" [] s) = _
        rw [handle_starttag_td s hrow]),
    trace_deliver ts _ (Nat.succ_pos _) rfl]

/-- C7 witness: the cell texts `n/a`, `x`, `y` deliver exactly one callback,
`(1, "x")`. -/
theorem cell_delivers_first_text_once_witness :
    feedEvents traceCb (HtmlEvent.startTag "td" [] :: (["n/a", "x", "y"].map HtmlEvent.data))
        { in_row := true, page := [] } =
      .ok { in_table := false, in_row := true, td_nr := 1, td_done := true,
            page := [(1, "x")] } :=
  cell_delivers_first_text_once ["n/a", "x", "y"] { in_row := true, page := [] }
    rfl (by decide)

end Tigo
